import Mathlib

/-!
Verification of the `user-api` repository: a layered CRUD HTTP service for a
single `User` entity backed by a document store (MongoDB).

The embedding follows the source layer by layer:

* `objectIDHex` / `objectIDFromHex` — the translation between the store's
  12-byte binary identifier (`primitive.ObjectID`, modelled as a natural
  number below `2 ^ 96`) and its 24-character lowercase hex string form
  (`ObjectID.Hex` and `primitive.ObjectIDFromHex` in the Go driver).
* `Store` / `repoCreate` / `repoGetByID` / `repoList` / `repoUpdate` /
  `repoDelete` — `internal/repository/user_mongo_repository.go`.
* `CreateUser` / `GetUser` / `ListUsers` / `UpdateUser` / `DeleteUser` —
  `internal/usecase/user_usecase.go`.
* `createUserH` / `getUserH` / `listUsersH` / `updateUserH` / `deleteUserH` /
  `RegisterRoutes` — `internal/handler/http/user_handler.go`.

Driver-level failures (lost connection, timeout) are modelled by an explicit
`Option Nat` error-injection argument on each operation that performs a store
call: `none` means the call reaches a healthy store, `some e` means the driver
call returns the error `e` (an error distinct from `mongo.ErrNoDocuments`,
which the model renders separately as an absent document).
-/

namespace UserApi

/-! ### ObjectID hex encoding (Go driver `primitive.ObjectID`) -/

/-- One lowercase hex digit, as produced by `ObjectID.Hex` (Go `encoding/hex`
uses the lowercase alphabet). `d` is assumed `< 16`. -/
def hexDigit (d : Nat) : Char :=
  if d < 10 then Char.ofNat (48 + d) else Char.ofNat (87 + d)

/-- Value of a hex digit accepted by Go `encoding/hex.Decode`: it accepts
digits, lowercase and uppercase letters. -/
def hexCharVal (c : Char) : Option Nat :=
  if '0' ≤ c ∧ c ≤ '9' then some (c.toNat - 48)
  else if 'a' ≤ c ∧ c ≤ 'f' then some (c.toNat - 87)
  else if 'A' ≤ c ∧ c ≤ 'F' then some (c.toNat - 55)
  else none

/-- Fixed-width big-endian hex rendering: `toHexCore k n` is the `k`-character
hex spelling of `n % 16 ^ k`. -/
def toHexCore : Nat → Nat → List Char
  | 0, _ => []
  | k + 1, n => toHexCore k (n / 16) ++ [hexDigit (n % 16)]

/-- Big-endian hex parsing with an accumulator; fails on the first character
that is not a hex digit. -/
def decodeHexCore : List Char → Nat → Option Nat
  | [], acc => some acc
  | c :: cs, acc =>
    match hexCharVal c with
    | none => none
    | some v => decodeHexCore cs (acc * 16 + v)

/-- `ObjectID.Hex`: the 24-character lowercase hex string of a 12-byte
store-native identifier. A 12-byte identifier is a value modulo `2 ^ 96`. -/
def objectIDHex (n : Nat) : String :=
  ⟨toHexCore 24 (n % 2 ^ 96)⟩

/-- `primitive.ObjectIDFromHex`: succeeds exactly on 24-character hex strings
(upper or lower case), producing the 12-byte identifier they spell. -/
def objectIDFromHex (s : String) : Option Nat :=
  if s.length = 24 then decodeHexCore s.data 0 else none

/-! ### Data model (`internal/domain/user.go`, `userDoc` in the repository) -/

/-- The domain entity `domain.User`: identifier as a hex string, free-form
name and email. -/
structure User where
  id : String
  name : String
  email : String
deriving DecidableEq, Repr

/-- A stored document of the `users` collection. The Go `userDoc` struct has
fields `_id`, `name`, `email`; a MongoDB document may additionally carry
other fields, which a `$set` update of `name`/`email` leaves untouched —
`extra` models those. -/
structure UserDoc where
  id : Nat
  name : String
  email : String
  extra : List (String × String)
deriving DecidableEq, Repr

/-- The state of the `users` collection. `nextId` models the store's fresh
ObjectID assignment at insert time: the store hands out an identifier no
existing document carries. -/
structure Store where
  docs : List UserDoc
  nextId : Nat
deriving DecidableEq, Repr

/-- The store with no documents. -/
def emptyStore : Store := ⟨[], 0⟩

/-- Store invariant: document identifiers are below the insertion counter
(hence fresh ids really are fresh), the counter stays in 12-byte range, and
identifiers are pairwise distinct, as the store guarantees for `_id`. -/
def Store.WF (st : Store) : Prop :=
  (∀ d ∈ st.docs, d.id < st.nextId) ∧ st.nextId < 2 ^ 96 ∧
    (st.docs.map (·.id)).Nodup

/-- Errors crossing the repository/usecase boundary: the two domain errors of
`internal/usecase` (`ErrInvalidEmail`, `ErrNotFound`) plus the passthrough of
any other driver error, carried unchanged (`storage e`). -/
inductive Err where
  | invalidEmail
  | notFound
  | storage (e : Nat)
deriving DecidableEq, Repr

/-! ### Persistence adapter (`internal/repository/user_mongo_repository.go`) -/

/-- `FindOne(ctx, bson.M{"_id": oid})` on a healthy store: the first document
whose `_id` equals `oid`, or `mongo.ErrNoDocuments` (rendered `none`). -/
def findOne (st : Store) (oid : Nat) : Option UserDoc :=
  st.docs.find? fun d => d.id == oid

/-- Convert a stored document to the domain entity, as `GetByID`/`List` do:
`&domain.User{ID: doc.ID.Hex(), Name: doc.Name, Email: doc.Email}`. -/
def docUser (d : UserDoc) : User :=
  ⟨objectIDHex d.id, d.name, d.email⟩

/-- `Create`: builds a document from name/email (no `_id`, so the store
assigns a fresh one), inserts it, and writes the hex of the assigned id back
onto the record (the Go code mutates `user.ID` through the pointer; the model
returns the updated record). A driver failure `some e` is returned unchanged
and nothing is inserted. -/
def repoCreate (st : Store) (fail : Option Nat) (user : User) :
    Except Err User × Store :=
  match fail with
  | some e => (.error (.storage e), st)
  | none =>
    let oid := st.nextId
    (.ok { user with id := objectIDHex oid },
     ⟨st.docs ++ [⟨oid, user.name, user.email, []⟩], st.nextId + 1⟩)

/-- `GetByID`: decodes the hex id (invalid format → `ErrNotFound`), looks the
document up (`ErrNoDocuments` → `ErrNotFound`, other driver errors propagated
unchanged), and converts it to the domain entity. -/
def repoGetByID (st : Store) (fail : Option Nat) (id : String) :
    Except Err User :=
  match objectIDFromHex id with
  | none => .error .notFound
  | some oid =>
    match fail with
    | some e => .error (.storage e)
    | none =>
      match findOne st oid with
      | none => .error .notFound
      | some doc => .ok (docUser doc)

/-- The Go slice `users` of `List`: it starts `nil` and each loop iteration
appends one converted document, so it stays `nil` (here `none`) exactly when
the collection is empty. -/
def usersSlice (docs : List UserDoc) : Option (List User) :=
  docs.foldl (fun acc d => some (acc.getD [] ++ [docUser d])) none

/-- `List`: every document of the collection, in store order; a driver
failure is propagated unchanged. -/
def repoList (st : Store) (fail : Option Nat) :
    Except Err (Option (List User)) :=
  match fail with
  | some e => .error (.storage e)
  | none => .ok (usersSlice st.docs)

/-- `Update`: decodes the record's id (invalid format → `ErrNotFound`), then
`UpdateByID` with `$set {name, email}` — a field-level merge that rewrites
only those two fields of the matched document; `MatchedCount == 0` →
`ErrNotFound`; other driver errors propagated unchanged. -/
def repoUpdate (st : Store) (fail : Option Nat) (user : User) :
    Except Err Unit × Store :=
  match objectIDFromHex user.id with
  | none => (.error .notFound, st)
  | some oid =>
    match fail with
    | some e => (.error (.storage e), st)
    | none =>
      if st.docs.any (fun d => d.id == oid) then
        (.ok (),
         ⟨st.docs.map fun d =>
            if d.id == oid then ⟨d.id, user.name, user.email, d.extra⟩ else d,
          st.nextId⟩)
      else (.error .notFound, st)

/-- `Delete`: decodes the id (invalid format → `ErrNotFound`), `DeleteOne` by
`_id` (removing the first matching document); `DeletedCount == 0` →
`ErrNotFound`; other driver errors propagated unchanged. -/
def repoDelete (st : Store) (fail : Option Nat) (id : String) :
    Except Err Unit × Store :=
  match objectIDFromHex id with
  | none => (.error .notFound, st)
  | some oid =>
    match fail with
    | some e => (.error (.storage e), st)
    | none =>
      if st.docs.any (fun d => d.id == oid) then
        (.ok (), ⟨st.docs.eraseP (fun d => d.id == oid), st.nextId⟩)
      else (.error .notFound, st)

/-! ### Business logic (`internal/usecase/user_usecase.go`) -/

/-- Go `strings.Contains(email, "@")`: for the one-character needle `"@"`
this is exactly "some character of the string is `'@'`". -/
def hasAtSign (s : String) : Bool :=
  s.data.any fun c => c == '@'

/-- `CreateUser`: rejects an email without `'@'` with `ErrInvalidEmail`
before any repository call; otherwise builds the entity and delegates to
`repo.Create`, returning the id-populated record. -/
def CreateUser (st : Store) (fail : Option Nat) (name email : String) :
    Except Err User × Store :=
  if hasAtSign email then
    repoCreate st fail ⟨"", name, email⟩
  else (.error .invalidEmail, st)

/-- `GetUser`: pure delegation to `repo.GetByID`. -/
def GetUser (st : Store) (fail : Option Nat) (id : String) : Except Err User :=
  repoGetByID st fail id

/-- `ListUsers`: pure delegation to `repo.List`. -/
def ListUsers (st : Store) (fail : Option Nat) :
    Except Err (Option (List User)) :=
  repoList st fail

/-- The tail of `UpdateUser`: `repo.Update(user)` and, on success, return the
merged record. -/
def persistUpdate (st : Store) (fail : Option Nat) (user : User) :
    Except Err User × Store :=
  match repoUpdate st fail user with
  | (.error e, st2) => (.error e, st2)
  | (.ok _, st2) => (.ok user, st2)

/-- `UpdateUser`: fetches the record by id (propagating the error, in
particular `ErrNotFound`); overwrites `name` when the supplied name is
non-empty; when the supplied email is non-empty it must contain `'@'`
(`ErrInvalidEmail` otherwise, with nothing persisted) and overwrites `email`;
then persists the merged record via `repo.Update`. `failGet`/`failUpd` inject
driver failures into the two store calls. -/
def UpdateUser (st : Store) (failGet failUpd : Option Nat)
    (id name email : String) : Except Err User × Store :=
  match repoGetByID st failGet id with
  | .error e => (.error e, st)
  | .ok user0 =>
    let user1 := if name = "" then user0 else { user0 with name := name }
    if email = "" then
      persistUpdate st failUpd user1
    else
      if hasAtSign email then
        persistUpdate st failUpd { user1 with email := email }
      else (.error .invalidEmail, st)

/-- `DeleteUser`: pure delegation to `repo.Delete`. -/
def DeleteUser (st : Store) (fail : Option Nat) (id : String) :
    Except Err Unit × Store :=
  repoDelete st fail id

/-! ### Request handling (`internal/handler/http/user_handler.go`) -/

/-- JSON values, as produced by `encoding/json`. A `nil` Go slice marshals to
`null`, a non-nil slice to an array. -/
inductive Json where
  | null
  | str (s : String)
  | num (n : Int)
  | arr (elems : List Json)
  | obj (fields : List (String × Json))

/-- JSON shape of a `domain.User`, per its struct tags. -/
def jsonOfUser (u : User) : Json :=
  .obj [("id", .str u.id), ("name", .str u.name), ("email", .str u.email)]

/-- JSON shape of the `[]*domain.User` slice returned by `ListUsers`: `null`
for the nil slice, an array otherwise. -/
def jsonOfUsersSlice : Option (List User) → Json
  | none => .null
  | some l => .arr (l.map jsonOfUser)

/-- An HTTP response: status code and body. `none` is an empty body (the
delete handler writes only the status). -/
structure Response where
  status : Nat
  body : Option Json

/-- `writeJSON`: status plus JSON-encoded payload. -/
def writeJSON (status : Nat) (data : Json) : Response :=
  ⟨status, some data⟩

/-- `writeError`: status plus `{"error": msg}`. -/
def writeError (status : Nat) (msg : String) : Response :=
  ⟨status, some (.obj [("error", .str msg)])⟩

/-- Decoded request body of create/update: `{name, email}`. `none` models a
body `json.Decode` rejects. -/
structure UserReq where
  name : String
  email : String
deriving DecidableEq, Repr

/-- `createUser` handler: malformed body → 400; `ErrInvalidEmail` → 400 with
the error text; other errors → 500; success → 201 with the created record. -/
def createUserH (st : Store) (fail : Option Nat) (body : Option UserReq) :
    Response × Store :=
  match body with
  | none => (writeError 400 "Invalid request body", st)
  | some req =>
    match CreateUser st fail req.name req.email with
    | (.error .invalidEmail, st2) => (writeError 400 "invalid email", st2)
    | (.error _, st2) => (writeError 500 "Failed to create user", st2)
    | (.ok user, st2) => (writeJSON 201 (jsonOfUser user), st2)

/-- `listUsers` handler: any error → 500; success → 200 with the slice. -/
def listUsersH (st : Store) (fail : Option Nat) : Response :=
  match ListUsers st fail with
  | .error _ => writeError 500 "Failed to list users"
  | .ok users => writeJSON 200 (jsonOfUsersSlice users)

/-- `getUser` handler: `ErrNotFound` → 404; other errors → 500; success →
200 with the record. -/
def getUserH (st : Store) (fail : Option Nat) (id : String) : Response :=
  match GetUser st fail id with
  | .error .notFound => writeError 404 "User not found"
  | .error _ => writeError 500 "Failed to get user"
  | .ok user => writeJSON 200 (jsonOfUser user)

/-- `updateUser` handler: malformed body → 400; `ErrNotFound` → 404;
`ErrInvalidEmail` → 400; other errors → 500; success → 200 with the updated
record. -/
def updateUserH (st : Store) (failGet failUpd : Option Nat) (id : String)
    (body : Option UserReq) : Response × Store :=
  match body with
  | none => (writeError 400 "Invalid request body", st)
  | some req =>
    match UpdateUser st failGet failUpd id req.name req.email with
    | (.error .notFound, st2) => (writeError 404 "User not found", st2)
    | (.error .invalidEmail, st2) => (writeError 400 "invalid email", st2)
    | (.error _, st2) => (writeError 500 "Failed to update user", st2)
    | (.ok user, st2) => (writeJSON 200 (jsonOfUser user), st2)

/-- `deleteUser` handler: `ErrNotFound` → 404; other errors → 500; success →
204 with empty body. -/
def deleteUserH (st : Store) (fail : Option Nat) (id : String) :
    Response × Store :=
  match DeleteUser st fail id with
  | (.error .notFound, st2) => (writeError 404 "User not found", st2)
  | (.error _, st2) => (writeError 500 "Failed to delete user", st2)
  | (.ok _, st2) => (⟨204, none⟩, st2)

/-- HTTP methods used by the router. -/
inductive Method where
  | GET
  | POST
  | PUT
  | DELETE
deriving DecidableEq, Repr

/-- How chi joins a `Route` base path with a sub-pattern: the sub-pattern
`"/"` addresses the base path itself. -/
def chiJoin (base sub : String) : String :=
  if sub = "/" then base else base ++ sub

/-- `RegisterRoutes`: `r.Route("/api/v1/users", ...)` with the five
sub-routes the handler registers. -/
def RegisterRoutes : List (Method × String) :=
  [((.POST : Method), "/"), (.GET, "/"), (.GET, "/{id}"),
    (.PUT, "/{id}"), (.DELETE, "/{id}")].map
    fun p => (p.1, chiJoin "/api/v1/users" p.2)

/-- The Go slice of `ListUsers` as a plain list: the nil slice is the empty
list. Used to compare the listing against the created records. -/
def sliceToList : Option (List User) → List User
  | none => []
  | some l => l

/-- Sequence of `CreateUser` calls against a healthy store, one per
`(name, email)` pair, collecting the returned records; `none` if any call
fails. -/
def createAll (st : Store) : List (String × String) → Option (Store × List User)
  | [] => some (st, [])
  | p :: rest =>
    match CreateUser st none p.1 p.2 with
    | (.ok u, st2) =>
      match createAll st2 rest with
      | some (st3, us) => some (st3, u :: us)
      | none => none
    | (.error _, _) => none

/-! ### Hex round-trip lemmas -/

theorem toHexCore_length (k : Nat) : ∀ n, (toHexCore k n).length = k := by
  induction k with
  | zero => intro n; rfl
  | succ k ih =>
    intro n
    simp [toHexCore, List.length_append, ih]

theorem hexCharVal_hexDigit {d : Nat} (h : d < 16) :
    hexCharVal (hexDigit d) = some d := by
  have hall : ∀ d : Fin 16, hexCharVal (hexDigit d.val) = some d.val := by decide
  exact hall ⟨d, h⟩

theorem decodeHexCore_append (l₁ l₂ : List Char) (acc : Nat) :
    decodeHexCore (l₁ ++ l₂) acc =
      match decodeHexCore l₁ acc with
      | none => none
      | some acc2 => decodeHexCore l₂ acc2 := by
  induction l₁ generalizing acc with
  | nil => rfl
  | cons c cs ih =>
    simp only [List.cons_append, decodeHexCore]
    cases hexCharVal c with
    | none => rfl
    | some v => exact ih _

theorem decodeHexCore_toHexCore (k : Nat) :
    ∀ n acc, n < 16 ^ k →
      decodeHexCore (toHexCore k n) acc = some (acc * 16 ^ k + n) := by
  induction k with
  | zero =>
    intro n acc h
    interval_cases n
    simp [toHexCore, decodeHexCore]
  | succ k ih =>
    intro n acc h
    have hdiv : n / 16 < 16 ^ k := by
      rw [Nat.div_lt_iff_lt_mul (by norm_num)]
      calc n < 16 ^ (k + 1) := h
        _ = 16 ^ k * 16 := by ring
    have hmod : n % 16 < 16 := Nat.mod_lt _ (by norm_num)
    rw [toHexCore, decodeHexCore_append, ih (n / 16) acc hdiv]
    simp only [decodeHexCore, hexCharVal_hexDigit hmod]
    congr 1
    have := Nat.div_add_mod n 16
    ring_nf
    omega

theorem objectIDFromHex_objectIDHex {n : Nat} (h : n < 2 ^ 96) :
    objectIDFromHex (objectIDHex n) = some n := by
  have hlen : (objectIDHex n).length = 24 := by
    simp [objectIDHex, String.length, toHexCore_length]
  have hmod : n % 2 ^ 96 = n := Nat.mod_eq_of_lt h
  have hpow : (16 : Nat) ^ 24 = 2 ^ 96 := by norm_num
  rw [objectIDFromHex, if_pos hlen]
  show decodeHexCore (toHexCore 24 (n % 2 ^ 96)) 0 = some n
  rw [hmod, decodeHexCore_toHexCore 24 n 0 (hpow ▸ h)]
  simp

theorem objectIDHex_ne_empty (n : Nat) : objectIDHex n ≠ "" := by
  intro h
  have h24 : (objectIDHex n).length = 24 := by
    simp [objectIDHex, String.length, toHexCore_length]
  rw [h] at h24
  simp [String.length] at h24

/-! ### List helper lemmas -/

theorem find?_append_of_none {α : Type} (p : α → Bool) (l₁ l₂ : List α)
    (h : ∀ a ∈ l₁, p a = false) :
    (l₁ ++ l₂).find? p = l₂.find? p := by
  induction l₁ with
  | nil => rfl
  | cons a l ih =>
    have ha : p a = false := h a (List.mem_cons_self a l)
    simp only [List.cons_append, List.find?, ha]
    exact ih fun b hb => h b (List.mem_cons_of_mem a hb)

theorem find?_id_of_mem_nodup {l : List UserDoc} {d0 : UserDoc}
    (hnd : (l.map (·.id)).Nodup) (hmem : d0 ∈ l) :
    l.find? (fun d => d.id == d0.id) = some d0 := by
  induction l with
  | nil => cases hmem
  | cons a l ih =>
    rw [List.map_cons, List.nodup_cons] at hnd
    rcases List.mem_cons.mp hmem with rfl | hmem2
    · simp [List.find?]
    · have ha : (a.id == d0.id) = false := by
        rw [beq_eq_false_iff_ne]
        intro he
        exact hnd.1 (he ▸ List.mem_map_of_mem (·.id) hmem2)
      simp only [List.find?, ha]
      exact ih hnd.2 hmem2

theorem any_eraseP_id {l : List UserDoc} {oid : Nat}
    (hnd : (l.map (·.id)).Nodup) :
    (l.eraseP (fun d => d.id == oid)).any (fun d => d.id == oid) = false := by
  induction l with
  | nil => rfl
  | cons a l ih =>
    rw [List.map_cons, List.nodup_cons] at hnd
    rw [List.eraseP_cons]
    by_cases ha : (a.id == oid) = true
    · simp only [ha, cond_true]
      rw [List.any_eq_false]
      intro d hd hbe
      have hida : a.id = d.id := by rw [eq_of_beq ha, eq_of_beq hbe]
      exact hnd.1 (hida ▸ List.mem_map_of_mem (·.id) hd)
    · have ha2 : (a.id == oid) = false := by simpa using ha
      simp only [ha2, cond_false]
      rw [List.any_cons]
      simp only [ha2, Bool.false_or]
      exact ih hnd.2

theorem usersSlice_foldl (ds : List UserDoc) :
    ∀ l : List User,
      ds.foldl (fun acc d => some (acc.getD [] ++ [docUser d])) (some l) =
        some (l ++ ds.map docUser) := by
  induction ds with
  | nil => intro l; simp
  | cons d ds ih =>
    intro l
    simp only [List.foldl_cons, Option.getD_some, List.map_cons]
    rw [ih (l ++ [docUser d])]
    simp

theorem sliceToList_usersSlice (docs : List UserDoc) :
    sliceToList (usersSlice docs) = docs.map docUser := by
  cases docs with
  | nil => rfl
  | cons d ds =>
    simp only [usersSlice, List.foldl_cons, Option.getD_none, List.nil_append]
    rw [usersSlice_foldl ds [docUser d]]
    simp [sliceToList]

/-! ### Reduction lemmas for the usecase layer -/

theorem UpdateUser_getOk (st : Store) (fu : Option Nat) (id nm em : String)
    (u0 : User) (hget : repoGetByID st none id = .ok u0) :
    UpdateUser st none fu id nm em =
      (if em = "" then
        persistUpdate st fu (if nm = "" then u0 else { u0 with name := nm })
      else if hasAtSign em then
        persistUpdate st fu
          { (if nm = "" then u0 else { u0 with name := nm }) with email := em }
      else (.error .invalidEmail, st)) := by
  unfold UpdateUser
  rw [hget]

theorem UpdateUser_getErr (st : Store) (fg fu : Option Nat)
    (id nm em : String) (er : Err)
    (hget : repoGetByID st fg id = .error er) :
    UpdateUser st fg fu id nm em = (.error er, st) := by
  unfold UpdateUser
  rw [hget]

theorem persistUpdate_of_repoOk (st st2 : Store) (fail : Option Nat)
    (u : User) (h : repoUpdate st fail u = (.ok (), st2)) :
    persistUpdate st fail u = (.ok u, st2) := by
  unfold persistUpdate
  rw [h]

theorem persistUpdate_of_repoErr (st st2 : Store) (fail : Option Nat)
    (u : User) (er : Err) (h : repoUpdate st fail u = (.error er, st2)) :
    persistUpdate st fail u = (.error er, st2) := by
  unfold persistUpdate
  rw [h]

theorem repoUpdate_fail_some (st : Store) (u : User) (oid er : Nat)
    (hdec : objectIDFromHex u.id = some oid) :
    repoUpdate st (some er) u = (.error (.storage er), st) := by
  simp only [repoUpdate, hdec]

theorem repoUpdate_ok_none (st : Store) (u : User) (oid : Nat)
    (hdec : objectIDFromHex u.id = some oid)
    (hany : st.docs.any (fun d => d.id == oid) = true) :
    repoUpdate st none u =
      (.ok (), ⟨st.docs.map fun d =>
        if d.id == oid then ⟨d.id, u.name, u.email, d.extra⟩ else d,
       st.nextId⟩) := by
  simp only [repoUpdate, hdec, hany, if_true]

/-! ### Claims -/

/-- C1: for every name and every email containing `'@'`, `CreateUser`
succeeds, the returned record's id is non-empty (the lowercase hex of the
store-assigned identifier), and `GetUser` of that id returns a record with
the identical `(name, email)` pair. -/
theorem createUser_getUser_roundtrip (st : Store) (name email : String)
    (hWF : st.WF) (hat : hasAtSign email = true) :
    ∃ u st2, CreateUser st none name email = (.ok u, st2) ∧
      u.id = objectIDHex st.nextId ∧ u.id ≠ "" ∧
      ∃ u2, GetUser st2 none u.id = .ok u2 ∧
        u2.name = name ∧ u2.email = email := by
  obtain ⟨hlt, hbound, hnd⟩ := hWF
  refine ⟨(⟨objectIDHex st.nextId, name, email⟩ : User),
    (⟨st.docs ++ [⟨st.nextId, name, email, []⟩], st.nextId + 1⟩ : Store),
    ?_, rfl, objectIDHex_ne_empty _, ?_⟩
  · simp [CreateUser, hat, repoCreate]
  · refine ⟨⟨objectIDHex st.nextId, name, email⟩, ?_, rfl, rfl⟩
    simp only [GetUser, repoGetByID, objectIDFromHex_objectIDHex hbound]
    have hnone : ∀ d ∈ st.docs, (fun d : UserDoc => d.id == st.nextId) d = false := by
      intro d hd
      have hdlt : d.id < st.nextId := hlt d hd
      simp only [beq_eq_false_iff_ne]
      omega
    have hfind : findOne ⟨st.docs ++ [⟨st.nextId, name, email, []⟩],
        st.nextId + 1⟩ st.nextId = some ⟨st.nextId, name, email, []⟩ := by
      simp only [findOne]
      rw [find?_append_of_none _ _ _ hnone]
      simp [List.find?]
    rw [hfind]
    rfl

/-- C1 witness: a concrete create/read round trip from the empty store. -/
theorem createUser_getUser_roundtrip_witness :
    ∃ u st2, CreateUser emptyStore none "Jane" "jane@x.com" = (.ok u, st2) ∧
      u.id = objectIDHex emptyStore.nextId ∧ u.id ≠ "" ∧
      ∃ u2, GetUser st2 none u.id = .ok u2 ∧
        u2.name = "Jane" ∧ u2.email = "jane@x.com" :=
  createUser_getUser_roundtrip emptyStore "Jane" "jane@x.com"
    ⟨by intro d hd; simp [emptyStore] at hd, by norm_num [emptyStore],
      by simp [emptyStore]⟩
    (by decide)

/-- C2: for every email without `'@'`, `CreateUser` fails with
`InvalidEmail` for every name and store, and `UpdateUser` with a non-empty
such email fails with `InvalidEmail` for every existing id; in both cases
the store is returned unchanged (no persistence call was reached). -/
theorem invalidEmail_no_mutation (email : String)
    (hat : hasAtSign email = false) :
    (∀ st fail name, CreateUser st fail name email = (.error .invalidEmail, st)) ∧
    (∀ st id name u0, email ≠ "" → repoGetByID st none id = .ok u0 →
      UpdateUser st none none id name email = (.error .invalidEmail, st)) := by
  constructor
  · intro st fail name
    simp [CreateUser, hat]
  · intro st id name u0 hne hget
    simp [UpdateUser, hget, hne, hat]

/-- C2 witness: a concrete rejected create and a concrete rejected update of
a stored record, both leaving the store untouched. -/
theorem invalidEmail_no_mutation_witness :
    CreateUser emptyStore none "Bob" "bad-email" =
      (.error .invalidEmail, emptyStore) ∧
    UpdateUser ⟨[⟨5, "n", "e@x", []⟩], 6⟩ none none (objectIDHex 5) "X"
      "bad-email" = (.error .invalidEmail, ⟨[⟨5, "n", "e@x", []⟩], 6⟩) :=
  ⟨(invalidEmail_no_mutation "bad-email" (by decide)).1 emptyStore none "Bob",
   (invalidEmail_no_mutation "bad-email" (by decide)).2
     ⟨[⟨5, "n", "e@x", []⟩], 6⟩ (objectIDHex 5) "X"
     ⟨objectIDHex 5, "n", "e@x"⟩ (by decide) (by rfl)⟩

/-- C3: for a stored record with prior name `n0` and email `e0`,
`UpdateUser(id, "", e)` with `e` non-empty and containing `'@'` succeeds and
yields name `n0` with email `e` (only the email of that document changes);
`UpdateUser(id, "", "")` succeeds, still reaches the persistence write (a
failing write surfaces its error), and returns the record unchanged. -/
theorem updateUser_partial (st : Store) (d0 : UserDoc) (e : String)
    (hWF : st.WF) (hmem : d0 ∈ st.docs) (he : e ≠ "")
    (hat : hasAtSign e = true) :
    UpdateUser st none none (objectIDHex d0.id) "" e =
      (.ok ⟨objectIDHex d0.id, d0.name, e⟩,
       ⟨st.docs.map fun d =>
          if d = d0 then ⟨d0.id, d0.name, e, d0.extra⟩ else d,
        st.nextId⟩) ∧
    UpdateUser st none none (objectIDHex d0.id) "" "" =
      (.ok ⟨objectIDHex d0.id, d0.name, d0.email⟩, st) ∧
    ∀ er, UpdateUser st none (some er) (objectIDHex d0.id) "" "" =
      (.error (.storage er), st) := by
  obtain ⟨hlt, hbound, hnd⟩ := hWF
  have hid : d0.id < 2 ^ 96 := lt_trans (hlt d0 hmem) hbound
  have hdec : objectIDFromHex (objectIDHex d0.id) = some d0.id :=
    objectIDFromHex_objectIDHex hid
  have hfind : findOne st d0.id = some d0 := find?_id_of_mem_nodup hnd hmem
  have hget : repoGetByID st none (objectIDHex d0.id) = .ok (docUser d0) := by
    simp only [repoGetByID, hdec]
    rw [hfind]
  have hinj : ∀ x ∈ st.docs, x.id = d0.id → x = d0 := fun x hx hxy =>
    List.inj_on_of_nodup_map hnd hx hmem hxy
  have hany : st.docs.any (fun d => d.id == d0.id) = true := by
    rw [List.any_eq_true]
    exact ⟨d0, hmem, by simp⟩
  refine ⟨?_, ?_, ?_⟩
  · have hdocs1 : (st.docs.map fun d =>
        if d.id == d0.id then (⟨d.id, d0.name, e, d.extra⟩ : UserDoc) else d) =
        st.docs.map fun d =>
          if d = d0 then ⟨d0.id, d0.name, e, d0.extra⟩ else d := by
      apply List.map_congr_left
      intro d hd
      by_cases hdid : d.id = d0.id
      · have hdd : d = d0 := hinj d hd hdid
        subst hdd
        simp
      · have h1 : (d.id == d0.id) = false := by simpa using hdid
        have h2 : d ≠ d0 := fun hdd => hdid (by rw [hdd])
        simp [h1, h2]
    have hrepo1 : repoUpdate st none (⟨objectIDHex d0.id, d0.name, e⟩ : User) =
        (.ok (), ⟨st.docs.map fun d =>
          if d = d0 then ⟨d0.id, d0.name, e, d0.extra⟩ else d, st.nextId⟩) := by
      rw [repoUpdate_ok_none st ⟨objectIDHex d0.id, d0.name, e⟩ d0.id hdec hany]
      show (Except.ok (), (⟨st.docs.map fun d =>
        if d.id == d0.id then (⟨d.id, d0.name, e, d.extra⟩ : UserDoc) else d,
        st.nextId⟩ : Store)) = _
      rw [hdocs1]
    rw [UpdateUser_getOk st none (objectIDHex d0.id) "" e (docUser d0) hget,
      if_neg he, if_pos hat, if_pos rfl]
    exact persistUpdate_of_repoOk _ _ _ _ hrepo1
  · have hdocs2 : (st.docs.map fun d =>
        if d.id == d0.id then (⟨d.id, d0.name, d0.email, d.extra⟩ : UserDoc) else d) =
        st.docs := by
      conv_rhs => rw [← List.map_id st.docs]
      apply List.map_congr_left
      intro d hd
      by_cases hdid : d.id = d0.id
      · have hdd : d = d0 := hinj d hd hdid
        subst hdd
        simp
      · have h1 : (d.id == d0.id) = false := by simpa using hdid
        simp [h1]
    have hrepo2 : repoUpdate st none (docUser d0) = (.ok (), st) := by
      rw [repoUpdate_ok_none st (docUser d0) d0.id hdec hany]
      show (Except.ok (), (⟨st.docs.map fun d =>
        if d.id == d0.id then (⟨d.id, d0.name, d0.email, d.extra⟩ : UserDoc) else d,
        st.nextId⟩ : Store)) = _
      rw [hdocs2]
    rw [UpdateUser_getOk st none (objectIDHex d0.id) "" "" (docUser d0) hget,
      if_pos rfl, if_pos rfl]
    exact persistUpdate_of_repoOk _ _ _ _ hrepo2
  · intro er
    have hrepo3 : repoUpdate st (some er) (docUser d0) =
        (.error (.storage er), st) :=
      repoUpdate_fail_some st (docUser d0) d0.id er hdec
    rw [UpdateUser_getOk st (some er) (objectIDHex d0.id) "" "" (docUser d0) hget,
      if_pos rfl, if_pos rfl]
    exact persistUpdate_of_repoErr _ _ _ _ _ hrepo3

/-- C3 witness: a concrete partial email update and a concrete no-op update
of a one-document store. -/
theorem updateUser_partial_witness :
    UpdateUser ⟨[⟨5, "Jane", "jane@x.com", [("role", "admin")]⟩], 6⟩ none none
        (objectIDHex 5) "" "new@example.com" =
      (.ok ⟨objectIDHex 5, "Jane", "new@example.com"⟩,
       ⟨[⟨5, "Jane", "new@example.com", [("role", "admin")]⟩], 6⟩) ∧
    UpdateUser ⟨[⟨5, "Jane", "jane@x.com", [("role", "admin")]⟩], 6⟩ none none
        (objectIDHex 5) "" "" =
      (.ok ⟨objectIDHex 5, "Jane", "jane@x.com"⟩,
       ⟨[⟨5, "Jane", "jane@x.com", [("role", "admin")]⟩], 6⟩) := by
  have h := updateUser_partial ⟨[⟨5, "Jane", "jane@x.com", [("role", "admin")]⟩], 6⟩
    ⟨5, "Jane", "jane@x.com", [("role", "admin")]⟩ "new@example.com"
    ⟨by decide, by decide, by decide⟩ (by decide) (by decide) (by decide)
  exact ⟨h.1.trans rfl, h.2.1.trans rfl⟩

/-- C4: for every id that is structurally malformed (not 24 hex characters)
or well-formed but assigned to no stored document, `GetUser`, `UpdateUser`
and `DeleteUser` fail with `NotFound` and leave the store unchanged; a
driver error other than the zero-match case is propagated unchanged by all
three. -/
theorem unknownId_notFound (st : Store) (s nm em : String)
    (h : objectIDFromHex s = none ∨
      ∃ oid, objectIDFromHex s = some oid ∧ findOne st oid = none) :
    GetUser st none s = .error .notFound ∧
    UpdateUser st none none s nm em = (.error .notFound, st) ∧
    DeleteUser st none s = (.error .notFound, st) ∧
    ∀ er oid, objectIDFromHex s = some oid →
      GetUser st (some er) s = .error (.storage er) ∧
      UpdateUser st (some er) none s nm em = (.error (.storage er), st) ∧
      DeleteUser st (some er) s = (.error (.storage er), st) := by
  have hget : repoGetByID st none s = .error .notFound := by
    rcases h with hnone | ⟨oid, hsome, hfind⟩
    · simp only [repoGetByID, hnone]
    · simp only [repoGetByID, hsome]
      rw [hfind]
  have hdel : repoDelete st none s = (.error .notFound, st) := by
    rcases h with hnone | ⟨oid, hsome, hfind⟩
    · simp only [repoDelete, hnone]
    · have hany : st.docs.any (fun d => d.id == oid) = false := by
        rw [List.any_eq_false]
        exact fun d hd => List.find?_eq_none.mp hfind d hd
      simp only [repoDelete, hsome]
      rw [if_neg (by simp [hany])]
  refine ⟨hget, UpdateUser_getErr st none none s nm em .notFound hget, hdel,
    ?_⟩
  intro er oid hsome
  have hget2 : repoGetByID st (some er) s = .error (.storage er) := by
    simp only [repoGetByID, hsome]
  refine ⟨hget2, UpdateUser_getErr st (some er) none s nm em _ hget2, ?_⟩
  simp only [DeleteUser, repoDelete, hsome]

/-- C4 witness: a well-formed identifier never assigned by the empty store,
with a propagated driver error alongside. -/
theorem unknownId_notFound_witness :
    GetUser emptyStore none (objectIDHex 7) = .error .notFound ∧
    UpdateUser emptyStore none none (objectIDHex 7) "N" "n@x" =
      (.error .notFound, emptyStore) ∧
    DeleteUser emptyStore none (objectIDHex 7) =
      (.error .notFound, emptyStore) ∧
    GetUser emptyStore (some 42) (objectIDHex 7) = .error (.storage 42) :=
  have h := unknownId_notFound emptyStore (objectIDHex 7) "N" "n@x"
    (Or.inr ⟨7, rfl, rfl⟩)
  ⟨h.1, h.2.1, h.2.2.1, (h.2.2.2 42 7 rfl).1⟩

/-- C6: after a successful `DeleteUser(id)`, repeating `DeleteUser(id)` on
the resulting store fails with `NotFound` (and changes nothing) — delete
does not report success on repeat. -/
theorem deleteUser_second_notFound (st st2 : Store) (s : String)
    (hnd : (st.docs.map (·.id)).Nodup)
    (h : DeleteUser st none s = (.ok (), st2)) :
    DeleteUser st2 none s = (.error .notFound, st2) := by
  have hdu : repoDelete st none s = (.ok (), st2) := h
  rcases hdec : objectIDFromHex s with _ | oid
  · simp only [repoDelete, hdec] at hdu
    simp at hdu
  · simp only [repoDelete, hdec] at hdu
    by_cases hany : st.docs.any (fun d => d.id == oid) = true
    · rw [if_pos hany] at hdu
      rw [Prod.mk.injEq] at hdu
      obtain ⟨-, hst2⟩ := hdu
      subst hst2
      have hany2 : (List.eraseP (fun d => d.id == oid) st.docs).any
          (fun d => d.id == oid) = false := any_eraseP_id hnd
      show repoDelete _ none s = _
      simp only [repoDelete, hdec]
      rw [if_neg (by simp [hany2])]
    · rw [if_neg hany] at hdu
      simp at hdu

/-- C6 witness: deleting the only document, then deleting it again. -/
theorem deleteUser_second_notFound_witness :
    DeleteUser ⟨[], 4⟩ none (objectIDHex 3) =
      (.error .notFound, (⟨[], 4⟩ : Store)) :=
  deleteUser_second_notFound ⟨[⟨3, "A", "a@b", []⟩], 4⟩ ⟨[], 4⟩
    (objectIDHex 3) (by decide) (by rfl)

/-- C7: the persistence `Update` is a field-level merge: on a match it
succeeds, keeps the collection size and counter, sets exactly `name` and
`email` of each document matching the identifier while preserving its `_id`
and any other fields, leaves every non-matching document untouched, and on
zero matches returns `NotFound` with the store unchanged. -/
theorem repoUpdate_field_merge (st : Store) (u : User) (oid : Nat)
    (hdec : objectIDFromHex u.id = some oid) :
    (st.docs.any (fun d => d.id == oid) = true →
      (repoUpdate st none u).1 = .ok () ∧
      (repoUpdate st none u).2.nextId = st.nextId ∧
      (repoUpdate st none u).2.docs.length = st.docs.length ∧
      ∀ i (hi : i < st.docs.length)
          (hi2 : i < (repoUpdate st none u).2.docs.length),
        ((st.docs.get ⟨i, hi⟩).id = oid →
          (repoUpdate st none u).2.docs.get ⟨i, hi2⟩ =
            ⟨(st.docs.get ⟨i, hi⟩).id, u.name, u.email,
             (st.docs.get ⟨i, hi⟩).extra⟩) ∧
        ((st.docs.get ⟨i, hi⟩).id ≠ oid →
          (repoUpdate st none u).2.docs.get ⟨i, hi2⟩ =
            st.docs.get ⟨i, hi⟩)) ∧
    (st.docs.any (fun d => d.id == oid) = false →
      repoUpdate st none u = (.error .notFound, st)) := by
  constructor
  · intro hany
    rw [repoUpdate_ok_none st u oid hdec hany]
    refine ⟨rfl, rfl, by simp, ?_⟩
    intro i hi hi2
    constructor
    · intro hid
      simp only [List.get_eq_getElem] at hid ⊢
      simp [List.getElem_map, hid]
    · intro hid
      simp only [List.get_eq_getElem] at hid ⊢
      have hbeq : (st.docs[i].id == oid) = false := by simpa using hid
      simp [List.getElem_map, hbeq]
      exact fun h2 => absurd h2 hid
  · intro hany
    simp only [repoUpdate, hdec]
    rw [if_neg (by simp [hany])]

/-- C7 witness: a two-document store where the first document (with an extra
field) matches the update. -/
theorem repoUpdate_field_merge_witness :
    (repoUpdate ⟨[⟨1, "a", "a@x", [("k", "v")]⟩, ⟨2, "b", "b@x", []⟩], 3⟩
       none ⟨objectIDHex 1, "c", "c@x"⟩).1 = .ok () ∧
    (repoUpdate ⟨[⟨1, "a", "a@x", [("k", "v")]⟩, ⟨2, "b", "b@x", []⟩], 3⟩
       none ⟨objectIDHex 1, "c", "c@x"⟩).2.nextId = 3 :=
  have h := repoUpdate_field_merge
    ⟨[⟨1, "a", "a@x", [("k", "v")]⟩, ⟨2, "b", "b@x", []⟩], 3⟩
    ⟨objectIDHex 1, "c", "c@x"⟩ 1 rfl
  ⟨(h.1 (by decide)).1, (h.1 (by decide)).2.1⟩

theorem createAll_docs (ps : List (String × String)) :
    ∀ st, (∀ p ∈ ps, hasAtSign p.2 = true) →
      ∃ st3 us, createAll st ps = some (st3, us) ∧
        st3.docs.map docUser = st.docs.map docUser ++ us ∧
        us.length = ps.length := by
  induction ps with
  | nil =>
    intro st h
    exact ⟨st, [], rfl, by simp, rfl⟩
  | cons p rest ih =>
    intro st h
    have hat : hasAtSign p.2 = true := h p (List.mem_cons_self p rest)
    have hcreate : CreateUser st none p.1 p.2 =
        (.ok ⟨objectIDHex st.nextId, p.1, p.2⟩,
         ⟨st.docs ++ [⟨st.nextId, p.1, p.2, []⟩], st.nextId + 1⟩) := by
      simp [CreateUser, hat, repoCreate]
    obtain ⟨st3, us, hca, hmap, hlen⟩ :=
      ih ⟨st.docs ++ [⟨st.nextId, p.1, p.2, []⟩], st.nextId + 1⟩
        (fun q hq => h q (List.mem_cons_of_mem p hq))
    refine ⟨st3, ⟨objectIDHex st.nextId, p.1, p.2⟩ :: us, ?_, ?_, ?_⟩
    · simp only [createAll, hcreate, hca]
    · rw [hmap]
      simp [docUser]
    · simp [hlen]

/-- C8: creating `N` records into the empty store succeeds, and `ListUsers`
then returns exactly those `N` records — the listed `(id, name, email)`
triples are the created ones. -/
theorem listUsers_after_creates (ps : List (String × String))
    (h : ∀ p ∈ ps, hasAtSign p.2 = true) :
    ∃ st3 us, createAll emptyStore ps = some (st3, us) ∧
      us.length = ps.length ∧
      ∃ sl, ListUsers st3 none = .ok sl ∧ sliceToList sl = us := by
  obtain ⟨st3, us, hca, hmap, hlen⟩ := createAll_docs ps emptyStore h
  refine ⟨st3, us, hca, hlen, usersSlice st3.docs, rfl, ?_⟩
  rw [sliceToList_usersSlice, hmap]
  simp [emptyStore]

/-- C8 witness: two records created into the empty store and listed back. -/
theorem listUsers_after_creates_witness :
    ∃ st3 us, createAll emptyStore [("A", "a@x"), ("B", "b@y")] =
        some (st3, us) ∧ us.length = 2 ∧
      ∃ sl, ListUsers st3 none = .ok sl ∧ sliceToList sl = us :=
  listUsers_after_creates [("A", "a@x"), ("B", "b@y")] (by decide)

/-- C5: the request handlers map every outcome of a business-logic call to
exactly one response: malformed body → 400, `InvalidEmail` → 400, `NotFound`
→ 404, any other business-logic error → 500, successful create → 201 with
the created record, successful read/update/list → 200 with the record(s),
successful delete → 204 with empty body. -/
theorem handler_status_mapping :
    (∀ st fail, (createUserH st fail none).1 =
      writeError 400 "Invalid request body") ∧
    (∀ st fg fu id, (updateUserH st fg fu id none).1 =
      writeError 400 "Invalid request body") ∧
    (∀ st fail req, (CreateUser st fail req.name req.email).1 =
        .error .invalidEmail →
      (createUserH st fail (some req)).1 = writeError 400 "invalid email") ∧
    (∀ st fg fu id req, (UpdateUser st fg fu id req.name req.email).1 =
        .error .invalidEmail →
      (updateUserH st fg fu id (some req)).1 =
        writeError 400 "invalid email") ∧
    (∀ st fail id, GetUser st fail id = .error .notFound →
      getUserH st fail id = writeError 404 "User not found") ∧
    (∀ st fg fu id req, (UpdateUser st fg fu id req.name req.email).1 =
        .error .notFound →
      (updateUserH st fg fu id (some req)).1 =
        writeError 404 "User not found") ∧
    (∀ st fail id, (DeleteUser st fail id).1 = .error .notFound →
      (deleteUserH st fail id).1 = writeError 404 "User not found") ∧
    (∀ st fail req er, (CreateUser st fail req.name req.email).1 =
        .error (.storage er) →
      (createUserH st fail (some req)).1 =
        writeError 500 "Failed to create user") ∧
    (∀ st fail id er, GetUser st fail id = .error (.storage er) →
      getUserH st fail id = writeError 500 "Failed to get user") ∧
    (∀ st fail er, ListUsers st fail = .error (.storage er) →
      listUsersH st fail = writeError 500 "Failed to list users") ∧
    (∀ st fg fu id req er, (UpdateUser st fg fu id req.name req.email).1 =
        .error (.storage er) →
      (updateUserH st fg fu id (some req)).1 =
        writeError 500 "Failed to update user") ∧
    (∀ st fail id er, (DeleteUser st fail id).1 = .error (.storage er) →
      (deleteUserH st fail id).1 = writeError 500 "Failed to delete user") ∧
    (∀ st fail req u, (CreateUser st fail req.name req.email).1 = .ok u →
      (createUserH st fail (some req)).1 = writeJSON 201 (jsonOfUser u)) ∧
    (∀ st fail id u, GetUser st fail id = .ok u →
      getUserH st fail id = writeJSON 200 (jsonOfUser u)) ∧
    (∀ st fail sl, ListUsers st fail = .ok sl →
      listUsersH st fail = writeJSON 200 (jsonOfUsersSlice sl)) ∧
    (∀ st fg fu id req u, (UpdateUser st fg fu id req.name req.email).1 =
        .ok u →
      (updateUserH st fg fu id (some req)).1 = writeJSON 200 (jsonOfUser u)) ∧
    (∀ st fail id, (DeleteUser st fail id).1 = .ok () →
      (deleteUserH st fail id).1 = (⟨204, none⟩ : Response)) := by
  refine ⟨fun st fail => rfl, fun st fg fu id => rfl, ?_, ?_, ?_, ?_, ?_, ?_,
    ?_, ?_, ?_, ?_, ?_, ?_, ?_, ?_, ?_⟩
  · intro st fail req h
    rcases hc : CreateUser st fail req.name req.email with ⟨res, st2⟩
    rw [hc] at h
    simp only at h
    subst h
    simp [createUserH, hc]
  · intro st fg fu id req h
    rcases hc : UpdateUser st fg fu id req.name req.email with ⟨res, st2⟩
    rw [hc] at h
    simp only at h
    subst h
    simp [updateUserH, hc]
  · intro st fail id h
    simp [getUserH, h]
  · intro st fg fu id req h
    rcases hc : UpdateUser st fg fu id req.name req.email with ⟨res, st2⟩
    rw [hc] at h
    simp only at h
    subst h
    simp [updateUserH, hc]
  · intro st fail id h
    rcases hc : DeleteUser st fail id with ⟨res, st2⟩
    rw [hc] at h
    simp only at h
    subst h
    simp [deleteUserH, hc]
  · intro st fail req er h
    rcases hc : CreateUser st fail req.name req.email with ⟨res, st2⟩
    rw [hc] at h
    simp only at h
    subst h
    simp [createUserH, hc]
  · intro st fail id er h
    simp [getUserH, h]
  · intro st fail er h
    simp [listUsersH, h]
  · intro st fg fu id req er h
    rcases hc : UpdateUser st fg fu id req.name req.email with ⟨res, st2⟩
    rw [hc] at h
    simp only at h
    subst h
    simp [updateUserH, hc]
  · intro st fail id er h
    rcases hc : DeleteUser st fail id with ⟨res, st2⟩
    rw [hc] at h
    simp only at h
    subst h
    simp [deleteUserH, hc]
  · intro st fail req u h
    rcases hc : CreateUser st fail req.name req.email with ⟨res, st2⟩
    rw [hc] at h
    simp only at h
    subst h
    simp [createUserH, hc]
  · intro st fail id u h
    simp [getUserH, h]
  · intro st fail sl h
    simp [listUsersH, h]
  · intro st fg fu id req u h
    rcases hc : UpdateUser st fg fu id req.name req.email with ⟨res, st2⟩
    rw [hc] at h
    simp only at h
    subst h
    simp [updateUserH, hc]
  · intro st fail id h
    rcases hc : DeleteUser st fail id with ⟨res, st2⟩
    rw [hc] at h
    simp only at h
    subst h
    simp [deleteUserH, hc]

/-- C5 witness: concrete outcome of the create handler on a malformed body. -/
theorem handler_status_mapping_witness :
    (createUserH emptyStore none none).1 =
      writeError 400 "Invalid request body" :=
  handler_status_mapping.1 emptyStore none

/-- C9 counterexample: the router does not register `POST /users` — the
user routes are not mounted at the spec table's paths. -/
theorem routes_not_at_spec_paths :
    ((Method.POST : Method), "/users") ∉ RegisterRoutes := by
  decide

/-- C9 amended: the HTTP surface serves the five user operations with the
spec table's methods and shapes, but mounted under `/api/v1` — at
`/api/v1/users` and `/api/v1/users/{id}`. -/
theorem routes_at_api_v1 :
    RegisterRoutes =
      [((Method.POST : Method), "/api/v1/users"),
       (Method.GET, "/api/v1/users"),
       (Method.GET, "/api/v1/users/{id}"),
       (Method.PUT, "/api/v1/users/{id}"),
       (Method.DELETE, "/api/v1/users/{id}")] := by
  decide

/-- C10: on a store with no documents, `List` succeeds with the nil slice,
and the list endpoint therefore responds 200 with JSON `null` — which is
not the empty JSON array. -/
theorem list_empty_store_null (st : Store) (h : st.docs = []) :
    repoList st none = .ok none ∧
    listUsersH st none = writeJSON 200 Json.null ∧
    Json.null ≠ Json.arr [] := by
  have hs : usersSlice st.docs = none := by
    rw [h]
    rfl
  refine ⟨?_, ?_, fun hx => Json.noConfusion hx⟩
  · simp only [repoList, hs]
  · simp only [listUsersH, ListUsers, repoList, hs, jsonOfUsersSlice]

/-- C10 witness: the empty store itself. -/
theorem list_empty_store_null_witness :
    repoList emptyStore none = .ok none ∧
    listUsersH emptyStore none = writeJSON 200 Json.null ∧
    Json.null ≠ Json.arr [] :=
  list_empty_store_null emptyStore rfl

end UserApi
